import Mathlib

/-!
Verification development for the dx11 backend command-recording core
(`src/backend/dx11/src/lib.rs`).

The file embeds the two recorder strategies of the source:

* `CommandList` (the Buffered Recorder, `lib.rs` lines 279-301): a vector
  of commands together with a `DataBuffer` payload arena;
* `DeferredContext` (the Native Deferred Recorder, `lib.rs` lines 303-335):
  a wrapper around a native device context holding an optional compiled
  native command list; its operations are modelled by the native calls
  they emit, collected in a trace.

The modules `command` and `execute` are referenced by `lib.rs` but their
source files are not part of the repository snapshot; the definitions
taken from them (`Command`, `DataBuffer`, `execute.process`,
`execute.update_buffer`, `execute.update_texture`, replay) are modelled
from the specification and carry doc comments saying so.

Native side effects are represented by an explicit `NativeCall` trace;
byte data is represented by `List Nat`.
-/

/-- Buffer handle (`pub struct Buffer(native::Buffer)`, lib.rs:130):
an opaque, copyable, equality-comparable token for a native buffer. -/
structure Buffer where
  id : Nat
deriving DecidableEq, Repr

/-- Texture handle (`pub struct Texture(native::Texture)`, lib.rs:141). -/
structure Texture where
  id : Nat
deriving DecidableEq, Repr

/-- Cube faces, as in gfx-core `texture::CubeFace`
(PosX, NegX, PosY, NegY, PosZ, NegZ). -/
inductive CubeFace where
  | PosX | NegX | PosY | NegY | PosZ | NegZ
deriving DecidableEq, Repr

/-- The numeric index of a cube face (declaration order of the enum). -/
def CubeFace.index : CubeFace → Nat
  | .PosX => 0
  | .NegX => 1
  | .PosY => 2
  | .NegY => 3
  | .PosZ => 4
  | .NegZ => 5

/-- Modelled from the spec: the texture kind (`tex::Kind`); the
Translation Engine consumes only the texture's mip count from it
(spec 4.5: subresource index uses `mip_count`). The gfx-core `texture`
module is not part of this repository snapshot. -/
structure Kind where
  mipCount : Nat
deriving DecidableEq, Repr

/-- Raw image region (`tex::RawImageInfo`): offsets, extents, the target
mip level (`mipmap`) and a format code. -/
structure RawImageInfo where
  xoffset : Nat
  yoffset : Nat
  zoffset : Nat
  width : Nat
  height : Nat
  depth : Nat
  format : Nat
  mipmap : Nat
deriving DecidableEq, Repr

/-- Modelled from the spec: a `PayloadRef` / data pointer into a
`DataBuffer` — `{offset, length}` into the arena that produced it
(spec 3, `PayloadRef`). The `command` module is missing from src. -/
structure DataPointer where
  offset : Nat
  size : Nat
deriving DecidableEq, Repr

/-- Modelled from the spec: the Payload Arena (`command::DataBuffer`,
module missing from src): an append-only byte store (spec 4.1). -/
structure DataBuffer where
  store : List Nat
deriving DecidableEq, Repr

/-- `DataBuffer::new()`: empty store. -/
def DataBuffer.new : DataBuffer := ⟨[]⟩

/-- Modelled from the spec: `add(bytes) -> PayloadRef` copies the bytes
to the end of the store (synchronously, by value) and returns an
offset/length token (spec 4.1). -/
def DataBuffer.add (db : DataBuffer) (data : List Nat) : DataBuffer × DataPointer :=
  (⟨db.store ++ data⟩, ⟨db.store.length, data.length⟩)

/-- Modelled from the spec: `get(ref)` returns the view of the store the
token stands for (spec 4.1). -/
def DataBuffer.get (db : DataBuffer) (p : DataPointer) : List Nat :=
  (db.store.drop p.offset).take p.size

/-- `reset()` sets the logical length to zero (spec 4.1; retained
capacity is not observable in the model). -/
def DataBuffer.reset (_db : DataBuffer) : DataBuffer := ⟨[]⟩

/-- Modelled from the spec: `command::Command` (module missing from src).
The payload-bearing variants are the ones `lib.rs` constructs
(`Command::UpdateBuffer(buf, ptr, offset)` at lib.rs:295,
`Command::UpdateTexture(tex, kind, face, ptr, image)` at lib.rs:299);
all other state/draw variants are opaque, already-complete data records
(spec 1, 3) collapsed into `Draw` with an identifying code. -/
inductive Command where
  | UpdateBuffer : Buffer → DataPointer → Nat → Command
  | UpdateTexture : Texture → Kind → Option CubeFace → DataPointer → RawImageInfo → Command
  | Draw : Nat → Command
deriving DecidableEq, Repr

/-- Modelled from the spec: one native driver call, described by the
operation and its arguments (the Translation Engine's output, spec 4.5),
plus the two native context calls `lib.rs` itself issues
(`ClearState` at lib.rs:322, `Release` of a compiled command list at
lib.rs:318). -/
inductive NativeCall where
  | CopyBufferRegion : Buffer → Nat → List Nat → NativeCall
  | CopyTextureRegion : Texture → Nat → List Nat → RawImageInfo → NativeCall
  | DrawCall : Nat → NativeCall
  | ClearState : NativeCall
  | ReleaseCommandList : Nat → NativeCall
deriving DecidableEq, Repr

/-- Modelled from the spec: the native subresource index computed by the
Translation Engine for a texture update — `face_index * mip_count +
mip_level` when a face is present, else `mip_level` (spec 4.5). -/
def subresourceIndex (face : Option Nat) (mipCount mipLevel : Nat) : Nat :=
  match face with
  | some f => f * mipCount + mipLevel
  | none => mipLevel

/-- Modelled from the spec: `execute::update_buffer` (module missing from
src) issues one sub-region copy into the native buffer at the destination
offset, length = payload length (spec 4.5). -/
def execute.update_buffer (buf : Buffer) (data : List Nat) (offset : Nat) : NativeCall :=
  NativeCall.CopyBufferRegion buf offset data

/-- Modelled from the spec: `execute::update_texture` (module missing from
src) issues one sub-region copy addressed by the computed subresource
index and the image region (spec 4.5). -/
def execute.update_texture (tex : Texture) (kind : Kind) (face : Option CubeFace)
    (data : List Nat) (image : RawImageInfo) : NativeCall :=
  NativeCall.CopyTextureRegion tex
    (subresourceIndex (face.map CubeFace.index) kind.mipCount image.mipmap) data image

/-- Modelled from the spec: `execute::process` (module missing from src)
maps one command, with its payload resolved through the given
`DataBuffer`, onto the corresponding native call; opaque state/draw
commands translate 1:1 with no bookkeeping (spec 4.5). -/
def execute.process (db : DataBuffer) (c : Command) : NativeCall :=
  match c with
  | .UpdateBuffer buf ptr offset => execute.update_buffer buf (db.get ptr) offset
  | .UpdateTexture tex kind face ptr image => execute.update_texture tex kind face (db.get ptr) image
  | .Draw n => NativeCall.DrawCall n

/-- The Buffered Recorder
(`pub struct CommandList(Vec<command::Command>, command::DataBuffer)`,
lib.rs:279): `commands` is field 0, `data` is field 1. -/
structure CommandList where
  commands : List Command
  data : DataBuffer
deriving DecidableEq, Repr

/-- `CommandList::new()` (lib.rs:281-283). -/
def CommandList.new : CommandList := ⟨[], DataBuffer.new⟩

/-- `CommandList::reset` (lib.rs:286-289): clear the command vector and
reset the data buffer. -/
def CommandList.reset (cl : CommandList) : CommandList :=
  ⟨[], cl.data.reset⟩

/-- `CommandList::parse` (lib.rs:290-292): push the command unchanged. -/
def CommandList.parse (cl : CommandList) (c : Command) : CommandList :=
  ⟨cl.commands ++ [c], cl.data⟩

/-- `CommandList::update_buffer` (lib.rs:293-296): add the bytes to the
data buffer, then push `Command::UpdateBuffer(buf, ptr, offset)`. -/
def CommandList.update_buffer (cl : CommandList) (buf : Buffer) (data : List Nat)
    (offset : Nat) : CommandList :=
  let r := cl.data.add data
  ⟨cl.commands ++ [Command.UpdateBuffer buf r.2 offset], r.1⟩

/-- `CommandList::update_texture` (lib.rs:297-300): add the bytes to the
data buffer, then push `Command::UpdateTexture(tex, kind, face, ptr, image)`. -/
def CommandList.update_texture (cl : CommandList) (tex : Texture) (kind : Kind)
    (face : Option CubeFace) (data : List Nat) (image : RawImageInfo) : CommandList :=
  let r := cl.data.add data
  ⟨cl.commands ++ [Command.UpdateTexture tex kind face r.2 image], r.1⟩

/-- Modelled from the spec: replay of a Buffered Recorder (the replay
loop lives in the missing `command`/`pool` modules): each stored command
is processed by the Translation Engine, in order, against the recorder's
own data buffer (spec 2: replayed command by command through the same
Translation Engine). -/
def CommandList.replay (cl : CommandList) : List NativeCall :=
  cl.commands.map (execute.process cl.data)

/-- The Native Deferred Recorder
(`pub struct DeferredContext(ComPtr<ID3D11DeviceContext>, Option<*mut ID3D11CommandList>)`,
lib.rs:303). The wrapped native context is external state, modelled by
the emitted call trace; the recorder's own state is field 1, the optional
compiled native command list (modelled as a handle id). -/
structure DeferredContext where
  cmdList : Option Nat
deriving DecidableEq, Repr

/-- `DeferredContext::new(dc)` (lib.rs:306-308): no compiled list. -/
def DeferredContext.new : DeferredContext := ⟨none⟩

/-- `DeferredContext::reset` (lib.rs:316-324): if a compiled command list
exists, release it and clear the field; then `ClearState` the wrapped
native context. Returns the new state and the native calls issued. -/
def DeferredContext.reset (dc : DeferredContext) : DeferredContext × List NativeCall :=
  match dc.cmdList with
  | some cl => (⟨none⟩, [NativeCall.ReleaseCommandList cl, NativeCall.ClearState])
  | none => (⟨none⟩, [NativeCall.ClearState])

/-- `DeferredContext::parse` (lib.rs:325-328): process the command through
the Translation Engine immediately, against a freshly created (unused,
empty) data buffer. -/
def DeferredContext.parse (dc : DeferredContext) (c : Command) :
    DeferredContext × List NativeCall :=
  let db := DataBuffer.new
  (dc, [execute.process db c])

/-- `DeferredContext::update_buffer` (lib.rs:329-331): forward the bytes
straight to `execute::update_buffer`. -/
def DeferredContext.update_buffer (dc : DeferredContext) (buf : Buffer)
    (data : List Nat) (offset : Nat) : DeferredContext × List NativeCall :=
  (dc, [execute.update_buffer buf data offset])

/-- `DeferredContext::update_texture` (lib.rs:332-334): forward the bytes
straight to `execute::update_texture`. -/
def DeferredContext.update_texture (dc : DeferredContext) (tex : Texture) (kind : Kind)
    (face : Option CubeFace) (data : List Nat) (image : RawImageInfo) :
    DeferredContext × List NativeCall :=
  (dc, [execute.update_texture tex kind face data image])

/-- One recorder operation of the shared `command::Parser` capability
(spec 4.2): `record` / `record_buffer_update` / `record_texture_update`. -/
inductive Op where
  | record : Command → Op
  | recordBufferUpdate : Buffer → List Nat → Nat → Op
  | recordTextureUpdate : Texture → Kind → Option CubeFace → List Nat → RawImageInfo → Op
deriving DecidableEq, Repr

/-- Dispatch of one operation on the Buffered Recorder. -/
def CommandList.record (cl : CommandList) : Op → CommandList
  | .record c => cl.parse c
  | .recordBufferUpdate buf data off => cl.update_buffer buf data off
  | .recordTextureUpdate tex kind face data img => cl.update_texture tex kind face data img

/-- Driving the Buffered Recorder with a sequence of operations. -/
def CommandList.run (cl : CommandList) : List Op → CommandList
  | [] => cl
  | op :: ops => (cl.record op).run ops

/-- Dispatch of one operation on the Native Deferred Recorder. -/
def DeferredContext.record (dc : DeferredContext) : Op → DeferredContext × List NativeCall
  | .record c => dc.parse c
  | .recordBufferUpdate buf data off => dc.update_buffer buf data off
  | .recordTextureUpdate tex kind face data img => dc.update_texture tex kind face data img

/-- Driving the Native Deferred Recorder with a sequence of operations,
collecting the native calls issued, in order. -/
def DeferredContext.run (dc : DeferredContext) : List Op → DeferredContext × List NativeCall
  | [] => (dc, [])
  | op :: ops =>
    (((dc.record op).1.run ops).1, (dc.record op).2 ++ ((dc.record op).1.run ops).2)

/-- Whether a command carries a payload reference. -/
def Command.hasPayload : Command → Bool
  | .UpdateBuffer _ _ _ => true
  | .UpdateTexture _ _ _ _ _ => true
  | .Draw _ => false

/-- The `record` entry point of the capability takes a non-payload
command (spec 4.2); payload-bearing updates go through the specialized
entry points. -/
def Op.nonPayloadB : Op → Bool
  | .record c => !c.hasPayload
  | .recordBufferUpdate _ _ _ => true
  | .recordTextureUpdate _ _ _ _ _ => true

/-- The single native call the Translation Engine issues for one
operation (with the operation's own bytes; for `record`, against a fresh
empty data buffer exactly as `DeferredContext::parse` does). -/
def Op.translatedCall : Op → NativeCall
  | .record c => execute.process DataBuffer.new c
  | .recordBufferUpdate buf data off => execute.update_buffer buf data off
  | .recordTextureUpdate tex kind face data img => execute.update_texture tex kind face data img

/-- Whether a command's payload pointer lies within the first `n` bytes
of a store. -/
def Command.ptrBoundB (c : Command) (n : Nat) : Bool :=
  match c with
  | .UpdateBuffer _ p _ => decide (p.offset + p.size ≤ n)
  | .UpdateTexture _ _ _ p _ => decide (p.offset + p.size ≤ n)
  | .Draw _ => true

/-! ## Helper lemmas about the payload arena and the recorders -/

/-- Reading through a pointer that lies within the first `l.length` bytes
is unaffected by appending more bytes to the store. -/
theorem dataBuffer_get_append (l m : List Nat) (p : DataPointer)
    (h : p.offset + p.size ≤ l.length) :
    DataBuffer.get ⟨l ++ m⟩ p = DataBuffer.get ⟨l⟩ p := by
  unfold DataBuffer.get
  simp only
  rw [List.drop_append_of_le_length (by omega)]
  rw [List.take_append_of_le_length]
  rw [List.length_drop]
  omega

/-- Reading back the pointer returned by an `add` yields exactly the
bytes that were added. -/
theorem dataBuffer_get_add (l d : List Nat) :
    DataBuffer.get ⟨l ++ d⟩ ⟨l.length, d.length⟩ = d := by
  unfold DataBuffer.get
  simp only
  rw [List.drop_left, List.take_length]

/-- Processing an in-bounds command is unaffected by later growth of the
data buffer. -/
theorem process_append (db : DataBuffer) (m : List Nat) (c : Command)
    (h : Command.ptrBoundB c db.store.length = true) :
    execute.process ⟨db.store ++ m⟩ c = execute.process db c := by
  cases c with
  | UpdateBuffer buf p off =>
    have hb : p.offset + p.size ≤ db.store.length := of_decide_eq_true h
    simp only [execute.process]
    rw [dataBuffer_get_append db.store m p hb]
  | UpdateTexture tex kind face p img =>
    have hb : p.offset + p.size ≤ db.store.length := of_decide_eq_true h
    simp only [execute.process]
    rw [dataBuffer_get_append db.store m p hb]
  | Draw n => rfl

/-- A pointer bound is monotone in the store length. -/
theorem ptrBound_mono (c : Command) (n m : Nat) (h : n ≤ m)
    (hc : Command.ptrBoundB c n = true) : Command.ptrBoundB c m = true := by
  cases c <;> simp [Command.ptrBoundB] at hc ⊢ <;> omega

/-- Each operation appends exactly one command to the Buffered Recorder. -/
theorem record_length (cl : CommandList) (op : Op) :
    (cl.record op).commands.length = cl.commands.length + 1 := by
  cases op <;>
    simp [CommandList.record, CommandList.parse, CommandList.update_buffer,
      CommandList.update_texture]

/-- Recording one operation preserves the in-bounds invariant of all
stored payload pointers. -/
theorem record_bound (cl : CommandList) (op : Op)
    (hb : ∀ c ∈ cl.commands, Command.ptrBoundB c cl.data.store.length = true)
    (hop : Op.nonPayloadB op = true) :
    ∀ c ∈ (cl.record op).commands,
      Command.ptrBoundB c (cl.record op).data.store.length = true := by
  cases op with
  | record c0 =>
    intro c hc
    simp only [CommandList.record, CommandList.parse] at hc ⊢
    rcases List.mem_append.1 hc with h1 | h1
    · exact hb c h1
    · cases List.mem_singleton.1 h1
      cases c0 with
      | Draw n => rfl
      | UpdateBuffer buf p off => simp [Op.nonPayloadB, Command.hasPayload] at hop
      | UpdateTexture tex kind face p img => simp [Op.nonPayloadB, Command.hasPayload] at hop
  | recordBufferUpdate buf d off =>
    intro c hc
    simp only [CommandList.record, CommandList.update_buffer, DataBuffer.add] at hc ⊢
    rcases List.mem_append.1 hc with h1 | h1
    · exact ptrBound_mono c _ _ (by simp) (hb c h1)
    · cases List.mem_singleton.1 h1
      simp [Command.ptrBoundB]
  | recordTextureUpdate tex kind face d img =>
    intro c hc
    simp only [CommandList.record, CommandList.update_texture, DataBuffer.add] at hc ⊢
    rcases List.mem_append.1 hc with h1 | h1
    · exact ptrBound_mono c _ _ (by simp) (hb c h1)
    · cases List.mem_singleton.1 h1
      simp [Command.ptrBoundB]

/-- Recording one operation extends the replay trace by exactly the one
translated call for that operation. -/
theorem replay_record (cl : CommandList) (op : Op)
    (hb : ∀ c ∈ cl.commands, Command.ptrBoundB c cl.data.store.length = true)
    (hop : Op.nonPayloadB op = true) :
    (cl.record op).replay = cl.replay ++ [op.translatedCall] := by
  cases op with
  | record c0 =>
    cases c0 with
    | Draw n =>
      simp [CommandList.record, CommandList.parse, CommandList.replay,
        Op.translatedCall, execute.process]
    | UpdateBuffer buf p off => simp [Op.nonPayloadB, Command.hasPayload] at hop
    | UpdateTexture tex kind face p img => simp [Op.nonPayloadB, Command.hasPayload] at hop
  | recordBufferUpdate buf d off =>
    simp only [CommandList.record, CommandList.update_buffer, CommandList.replay,
      DataBuffer.add, Op.translatedCall, List.map_append, List.map_cons, List.map_nil]
    congr 1
    · exact List.map_congr_left fun c hc => process_append cl.data d c (hb c hc)
    · simp only [execute.process]
      rw [dataBuffer_get_add]
  | recordTextureUpdate tex kind face d img =>
    simp only [CommandList.record, CommandList.update_texture, CommandList.replay,
      DataBuffer.add, Op.translatedCall, List.map_append, List.map_cons, List.map_nil]
    congr 1
    · exact List.map_congr_left fun c hc => process_append cl.data d c (hb c hc)
    · simp only [execute.process]
      rw [dataBuffer_get_add]

/-- Driving the Buffered Recorder and replaying appends, per operation
and in order, the same translated calls. -/
theorem run_replay (ops : List Op) : ∀ cl : CommandList,
    (∀ c ∈ cl.commands, Command.ptrBoundB c cl.data.store.length = true) →
    (∀ op ∈ ops, Op.nonPayloadB op = true) →
    (cl.run ops).replay = cl.replay ++ ops.map Op.translatedCall := by
  induction ops with
  | nil => intro cl hb hops; simp [CommandList.run]
  | cons op ops ih =>
    intro cl hb hops
    have hop : Op.nonPayloadB op = true := hops op (List.mem_cons_self op ops)
    have hops2 : ∀ o ∈ ops, Op.nonPayloadB o = true :=
      fun o ho => hops o (List.mem_cons_of_mem _ ho)
    show ((cl.record op).run ops).replay = _
    rw [ih (cl.record op) (record_bound cl op hb hop) hops2,
      replay_record cl op hb hop]
    simp

/-- The in-bounds invariant is preserved across a whole run. -/
theorem run_bound (ops : List Op) : ∀ cl : CommandList,
    (∀ c ∈ cl.commands, Command.ptrBoundB c cl.data.store.length = true) →
    (∀ op ∈ ops, Op.nonPayloadB op = true) →
    ∀ c ∈ (cl.run ops).commands,
      Command.ptrBoundB c (cl.run ops).data.store.length = true := by
  induction ops with
  | nil => intro cl hb _; exact hb
  | cons op ops ih =>
    intro cl hb hops
    exact ih (cl.record op)
      (record_bound cl op hb (hops op (List.mem_cons_self op ops)))
      (fun o ho => hops o (List.mem_cons_of_mem _ ho))

/-- A run of `n` operations stores exactly `n` more commands. -/
theorem run_length (ops : List Op) : ∀ cl : CommandList,
    (cl.run ops).commands.length = cl.commands.length + ops.length := by
  induction ops with
  | nil => intro cl; rfl
  | cons op ops ih =>
    intro cl
    show ((cl.record op).run ops).commands.length = _
    rw [ih (cl.record op), record_length]
    simp
    omega

/-- One operation on the Native Deferred Recorder leaves its state
unchanged and emits exactly the one translated call. -/
theorem deferred_record_step (dc : DeferredContext) (op : Op) :
    dc.record op = (dc, [op.translatedCall]) := by
  cases op <;>
    simp [DeferredContext.record, DeferredContext.parse, DeferredContext.update_buffer,
      DeferredContext.update_texture, Op.translatedCall]

/-- Driving the Native Deferred Recorder emits, per operation and in
order, the translated calls. -/
theorem deferred_run_trace (ops : List Op) : ∀ dc : DeferredContext,
    dc.run ops = (dc, ops.map Op.translatedCall) := by
  induction ops with
  | nil => intro dc; rfl
  | cons op ops ih =>
    intro dc
    show (((dc.record op).1.run ops).1, (dc.record op).2 ++ ((dc.record op).1.run ops).2) = _
    rw [deferred_record_step dc op]
    simp [ih dc]

/-- Indexing an appended list right after the left part yields the first
appended element. -/
theorem getElem_append_cons_length {α : Type} (l m : List α) (x : α) :
    (l ++ x :: m)[l.length]? = some x := by
  induction l with
  | nil => simp
  | cons a l ih => simpa using ih

/-! ## Queue stubs and adapter opening (lib.rs:338-439) -/

/-- `pub struct Fence(())` (lib.rs:338). -/
structure Fence where
  u : Unit
deriving DecidableEq, Repr

/-- `pub struct CommandQueue {}` (lib.rs:413-414): no fields. -/
structure CommandQueue where
  u : Unit
deriving DecidableEq, Repr

/-- `CommandQueue::submit` (lib.rs:417-419): the body is
`unimplemented!()`, which always panics; modelled as `none` (no result,
no successor state). Arguments (submit infos, optional fence, access
info) are opaque. -/
def CommandQueue.submit (_q : CommandQueue) (_submit_infos : List Nat)
    (_fence : Option Fence) (_access : Nat) : Option (CommandQueue × Unit) :=
  none

/-- `CommandQueue::pin_submitted_resources` (lib.rs:421-423):
`unimplemented!()`; the handle manager argument is opaque. -/
def CommandQueue.pin_submitted_resources (_q : CommandQueue) (_man : Nat) :
    Option (CommandQueue × Unit) :=
  none

/-- `CommandQueue::wait_idle` (lib.rs:425-427): `unimplemented!()`. -/
def CommandQueue.wait_idle (_q : CommandQueue) : Option (CommandQueue × Unit) :=
  none

/-- `CommandQueue::cleanup` (lib.rs:429-431): `unimplemented!()`. -/
def CommandQueue.cleanup (_q : CommandQueue) : Option (CommandQueue × Unit) :=
  none

/-- `pub struct QueueFamily` (lib.rs:436). -/
structure QueueFamily where
  u : Unit
deriving DecidableEq, Repr

/-- `QueueFamily::num_queues` (lib.rs:438). -/
def QueueFamily.num_queues (_q : QueueFamily) : Nat := 1

/-- `Adapter` (lib.rs:341-345); the native adapter handle and info are
opaque to the claims and collapsed into an id. -/
structure Adapter where
  adapterId : Nat
deriving DecidableEq, Repr

/-- `winapi::SUCCEEDED`: an HRESULT signals success iff non-negative. -/
def SUCCEEDED (hr : Int) : Bool := decide (0 ≤ hr)

/-- The queue-vector part of the `core::Device` record constructed by
`Adapter::open` (lib.rs:392-401); the factory field is opaque and
omitted. Queue entries are opaque ids. -/
structure Device where
  general_queues : List Nat
  graphics_queues : List Nat
  compute_queues : List Nat
  transfer_queues : List Nat
  heap_types : List Nat
  memory_heaps : List Nat
deriving DecidableEq, Repr

/-- `Adapter::open` (lib.rs:348-402). The native `D3D11CreateDevice`
result is injected as `hr`; when it fails the code only logs
(`error!`, lib.rs:367-369, modelled as the returned log count) and
proceeds; the `queue_descs` argument is never read and every queue
vector of the returned device is `Vec::new()`. -/
def Adapter.openDevice (_a : Adapter) (_queue_descs : List (QueueFamily × Nat))
    (hr : Int) : Device × Nat :=
  (⟨[], [], [], [], [], []⟩, if SUCCEEDED hr then 0 else 1)

/-! ## Claim theorems -/

/-- C1: for every sequence of recorder operations (`record` with a
non-payload command, `record_buffer_update`, `record_texture_update`),
the native calls issued by replaying a Buffered Recorder (`CommandList`)
equal — as a list, hence also as a multiset, with the same arguments —
those issued by driving a Native Deferred Recorder (`DeferredContext`)
with the same sequence directly, both dispatching through the same
Translation Engine functions. -/
theorem strategy_equivalence (ops : List Op)
    (h : ∀ op ∈ ops, Op.nonPayloadB op = true) :
    (CommandList.new.run ops).replay = (DeferredContext.new.run ops).2 := by
  rw [run_replay ops CommandList.new (by intro c hc; cases hc) h,
    deferred_run_trace ops DeferredContext.new]
  simp [CommandList.new, CommandList.replay]

/-- Witness for C1 at a concrete operation sequence. -/
theorem strategy_equivalence_witness :
    (∀ op ∈ ([Op.recordBufferUpdate ⟨1⟩ [1, 2, 3, 4] 8,
              Op.record (Command.Draw 5),
              Op.recordTextureUpdate ⟨2⟩ ⟨4⟩ (some CubeFace.NegX) [7, 9]
                ⟨0, 0, 0, 1, 1, 1, 0, 2⟩] : List Op), Op.nonPayloadB op = true)
  ∧ (CommandList.new.run
        [Op.recordBufferUpdate ⟨1⟩ [1, 2, 3, 4] 8,
         Op.record (Command.Draw 5),
         Op.recordTextureUpdate ⟨2⟩ ⟨4⟩ (some CubeFace.NegX) [7, 9]
           ⟨0, 0, 0, 1, 1, 1, 0, 2⟩]).replay
      = (DeferredContext.new.run
          [Op.recordBufferUpdate ⟨1⟩ [1, 2, 3, 4] 8,
           Op.record (Command.Draw 5),
           Op.recordTextureUpdate ⟨2⟩ ⟨4⟩ (some CubeFace.NegX) [7, 9]
             ⟨0, 0, 0, 1, 1, 1, 0, 2⟩]).2 :=
  ⟨by decide, strategy_equivalence _ (by decide)⟩

/-- C2: driving a fresh Buffered Recorder with `n` operations stores
exactly `n` commands (one per operation, strict FIFO: replay issues, in
exactly insertion order, the one translated call of each operation), and
every stored payload-bearing command's pointer lies within the
recorder's own data buffer, written there by the `add` that preceded the
append. -/
theorem buffered_fifo (ops : List Op)
    (h : ∀ op ∈ ops, Op.nonPayloadB op = true) :
    (CommandList.new.run ops).commands.length = ops.length
  ∧ (CommandList.new.run ops).replay = ops.map Op.translatedCall
  ∧ ∀ c ∈ (CommandList.new.run ops).commands,
      Command.ptrBoundB c (CommandList.new.run ops).data.store.length = true := by
  refine ⟨?_, ?_, ?_⟩
  · rw [run_length]; simp [CommandList.new]
  · rw [run_replay ops CommandList.new (by intro c hc; cases hc) h]
    simp [CommandList.new, CommandList.replay]
  · exact run_bound ops CommandList.new (by intro c hc; cases hc) h

/-- Witness for C2 at a concrete operation sequence. -/
theorem buffered_fifo_witness :
    (∀ op ∈ ([Op.record (Command.Draw 0),
              Op.recordBufferUpdate ⟨3⟩ [10, 20] 0,
              Op.recordBufferUpdate ⟨4⟩ [30] 2] : List Op), Op.nonPayloadB op = true)
  ∧ ((CommandList.new.run
        [Op.record (Command.Draw 0),
         Op.recordBufferUpdate ⟨3⟩ [10, 20] 0,
         Op.recordBufferUpdate ⟨4⟩ [30] 2]).commands.length
      = ([Op.record (Command.Draw 0),
          Op.recordBufferUpdate ⟨3⟩ [10, 20] 0,
          Op.recordBufferUpdate ⟨4⟩ [30] 2] : List Op).length
  ∧ (CommandList.new.run
        [Op.record (Command.Draw 0),
         Op.recordBufferUpdate ⟨3⟩ [10, 20] 0,
         Op.recordBufferUpdate ⟨4⟩ [30] 2]).replay
      = ([Op.record (Command.Draw 0),
          Op.recordBufferUpdate ⟨3⟩ [10, 20] 0,
          Op.recordBufferUpdate ⟨4⟩ [30] 2] : List Op).map Op.translatedCall
  ∧ ∀ c ∈ (CommandList.new.run
        [Op.record (Command.Draw 0),
         Op.recordBufferUpdate ⟨3⟩ [10, 20] 0,
         Op.recordBufferUpdate ⟨4⟩ [30] 2]).commands,
      Command.ptrBoundB c (CommandList.new.run
        [Op.record (Command.Draw 0),
         Op.recordBufferUpdate ⟨3⟩ [10, 20] 0,
         Op.recordBufferUpdate ⟨4⟩ [30] 2]).data.store.length = true) :=
  ⟨by decide, buffered_fifo _ (by decide)⟩

/-- C3: `CommandList::update_buffer` obtains a payload reference from
`DataBuffer::add(bytes)` and appends exactly one
`Command::UpdateBuffer` carrying the handle, that reference and the
offset; `update_texture` follows the same copy-then-append pattern; and
replaying the single recorded buffer update produces exactly one
copy-region call targeting the handle at the given destination offset
with the given bytes, and no other calls. -/
theorem update_buffer_copy_append (cl : CommandList) (buf : Buffer) (bytes : List Nat)
    (off : Nat) (tx : Texture) (k : Kind) (f : Option CubeFace) (img : RawImageInfo) :
    (cl.update_buffer buf bytes off).commands
        = cl.commands ++ [Command.UpdateBuffer buf (cl.data.add bytes).2 off]
  ∧ (cl.update_buffer buf bytes off).data = (cl.data.add bytes).1
  ∧ (cl.update_texture tx k f bytes img).commands
        = cl.commands ++ [Command.UpdateTexture tx k f (cl.data.add bytes).2 img]
  ∧ (cl.update_texture tx k f bytes img).data = (cl.data.add bytes).1
  ∧ (CommandList.new.update_buffer buf bytes off).replay
        = [NativeCall.CopyBufferRegion buf off bytes] := by
  refine ⟨rfl, rfl, rfl, rfl, ?_⟩
  simp [CommandList.new, CommandList.update_buffer, CommandList.replay, DataBuffer.add,
    DataBuffer.new, DataBuffer.get, execute.process, execute.update_buffer]

/-- C4: after `update_buffer(h, bytes, off)` returns, the recorder holds
its own synchronously written copy of the bytes: reading the returned
payload reference yields exactly the call-time bytes, and the call
observed at replay — even after arbitrary further recording activity —
carries exactly those bytes. The recorder state is a pure value built
from the byte values at call time, so no later change to the caller's
buffer is reflected in it. -/
theorem payload_isolation (cl : CommandList) (buf : Buffer) (bytes : List Nat) (off : Nat)
    (later : List Op)
    (hb : ∀ c ∈ cl.commands, Command.ptrBoundB c cl.data.store.length = true)
    (hl : ∀ op ∈ later, Op.nonPayloadB op = true) :
    DataBuffer.get (cl.update_buffer buf bytes off).data (cl.data.add bytes).2 = bytes
  ∧ ((cl.update_buffer buf bytes off).run later).replay[cl.commands.length]?
      = some (NativeCall.CopyBufferRegion buf off bytes) := by
  constructor
  · exact dataBuffer_get_add cl.data.store bytes
  · rw [show cl.update_buffer buf bytes off
        = cl.record (Op.recordBufferUpdate buf bytes off) from rfl,
      run_replay later _
        (record_bound cl (Op.recordBufferUpdate buf bytes off) hb rfl) hl,
      replay_record cl (Op.recordBufferUpdate buf bytes off) hb rfl,
      List.append_assoc]
    rw [show cl.commands.length = cl.replay.length by simp [CommandList.replay]]
    exact getElem_append_cons_length cl.replay _ _

/-- Witness for C4 at concrete inputs. -/
theorem payload_isolation_witness :
    (∀ c ∈ CommandList.new.commands,
        Command.ptrBoundB c CommandList.new.data.store.length = true)
  ∧ (∀ op ∈ ([Op.record (Command.Draw 2)] : List Op), Op.nonPayloadB op = true)
  ∧ (DataBuffer.get (CommandList.new.update_buffer ⟨1⟩ [9, 8, 7, 6] 8).data
        (CommandList.new.data.add [9, 8, 7, 6]).2 = [9, 8, 7, 6]
  ∧ ((CommandList.new.update_buffer ⟨1⟩ [9, 8, 7, 6] 8).run
        [Op.record (Command.Draw 2)]).replay[CommandList.new.commands.length]?
      = some (NativeCall.CopyBufferRegion ⟨1⟩ 8 [9, 8, 7, 6])) :=
  ⟨by decide, by decide,
    payload_isolation CommandList.new ⟨1⟩ [9, 8, 7, 6] 8
      [Op.record (Command.Draw 2)] (by decide) (by decide)⟩

/-- C5 counterexample: the claim says `reset()` on a freshly constructed
Recorder is a no-op issuing no calls; on a fresh `DeferredContext`,
`reset` issues a `ClearState` native call, so its call trace is not
empty. -/
theorem reset_noop_counterexample :
    (DeferredContext.new.reset).2 ≠ ([] : List NativeCall)
  ∧ (DeferredContext.new.reset).2 = [NativeCall.ClearState] := by
  constructor
  · decide
  · rfl

/-- C5 amended: `CommandList.reset` is idempotent and a no-op on a fresh
or empty recorder (no calls, arena length stays 0), and after any
operations one `reset` yields a state observationally identical on
replay to a fresh recorder. `DeferredContext.reset` also brings the
recorder state back to the freshly constructed state and is idempotent
on states, but each invocation issues a `ClearState` call on the wrapped
native context (plus a `Release` when a compiled list exists), so it is
not call-free. -/
theorem reset_idempotent_amended (cl : CommandList) (dc : DeferredContext) :
    CommandList.new.reset = CommandList.new
  ∧ (CommandList.new.reset).data.store.length = 0
  ∧ (CommandList.new.reset).replay = []
  ∧ cl.reset.reset = cl.reset
  ∧ cl.reset.replay = CommandList.new.replay
  ∧ (dc.reset).1 = DeferredContext.new
  ∧ ((dc.reset).1.reset).1 = (dc.reset).1
  ∧ (DeferredContext.new.reset).2 = [NativeCall.ClearState] := by
  refine ⟨rfl, rfl, rfl, rfl, rfl, ?_, ?_, rfl⟩
  · rcases dc with ⟨_ | n⟩ <;> rfl
  · rcases dc with ⟨_ | n⟩ <;> rfl

/-- C6: the Translation Engine's texture update computes the native
subresource index as `face_index * mip_count + mip_level` when a cube
face is present and as `mip_level` when it is absent; in particular with
`mip_count = 1` and face `+Y` (index 2) the index is 2, and with
`mip_count = 4`, face index 1 (`-X`), mip level 2 it is 6. -/
theorem subresource_index_formula (tx : Texture) (k : Kind) (f : CubeFace)
    (d : List Nat) (img : RawImageInfo) :
    execute.update_texture tx k (some f) d img
        = NativeCall.CopyTextureRegion tx (f.index * k.mipCount + img.mipmap) d img
  ∧ execute.update_texture tx k none d img
        = NativeCall.CopyTextureRegion tx img.mipmap d img
  ∧ execute.update_texture ⟨0⟩ ⟨1⟩ (some CubeFace.PosY) d ⟨0, 0, 0, 4, 4, 1, 0, 0⟩
        = NativeCall.CopyTextureRegion ⟨0⟩ 2 d ⟨0, 0, 0, 4, 4, 1, 0, 0⟩
  ∧ execute.update_texture ⟨0⟩ ⟨4⟩ (some CubeFace.NegX) d ⟨0, 0, 0, 4, 4, 1, 0, 2⟩
        = NativeCall.CopyTextureRegion ⟨0⟩ 6 d ⟨0, 0, 0, 4, 4, 1, 0, 2⟩ := by
  refine ⟨rfl, rfl, ?_, ?_⟩ <;>
    simp [execute.update_texture, subresourceIndex, CubeFace.index]

/-- C7: `DeferredContext::reset` first releases the compiled native
command list (when one exists) and clears the field, then issues
`ClearState` on the wrapped context; afterwards no compiled list is
held, so a compiled list is always released and cleared before new
recordings are accepted. -/
theorem deferred_reset_releases (dc : DeferredContext) (n : Nat)
    (h : dc.cmdList = some n) :
    (dc.reset).2 = [NativeCall.ReleaseCommandList n, NativeCall.ClearState]
  ∧ (dc.reset).1.cmdList = none
  ∧ ((⟨none⟩ : DeferredContext).reset).2 = [NativeCall.ClearState] := by
  refine ⟨?_, ?_, rfl⟩ <;> simp [DeferredContext.reset, h]

/-- Witness for C7 with a held compiled list. -/
theorem deferred_reset_releases_witness :
    (⟨some 7⟩ : DeferredContext).cmdList = some 7
  ∧ (((⟨some 7⟩ : DeferredContext).reset).2
        = [NativeCall.ReleaseCommandList 7, NativeCall.ClearState]
  ∧ ((⟨some 7⟩ : DeferredContext).reset).1.cmdList = none
  ∧ ((⟨none⟩ : DeferredContext).reset).2 = [NativeCall.ClearState]) :=
  ⟨rfl, deferred_reset_releases ⟨some 7⟩ 7 rfl⟩

/-- C8: `DeferredContext::update_buffer` / `update_texture` forward the
caller's bytes directly to the Translation Engine's update path; the
recorder's own state (which holds no payload arena at all) is unchanged
by these calls. -/
theorem deferred_update_direct (dc : DeferredContext) (buf : Buffer) (d : List Nat)
    (off : Nat) (tx : Texture) (k : Kind) (f : Option CubeFace) (img : RawImageInfo) :
    dc.update_buffer buf d off = (dc, [execute.update_buffer buf d off])
  ∧ dc.update_texture tx k f d img = (dc, [execute.update_texture tx k f d img])
  ∧ (dc.update_buffer buf d off).1 = dc
  ∧ (dc.update_texture tx k f d img).1 = dc :=
  ⟨rfl, rfl, rfl, rfl⟩

/-- C9: the four queue-level operations of `CommandQueue` are
unimplemented stubs: for every input each diverges (modelled as `none`)
and never produces a result or successor state. -/
theorem command_queue_stubs (q : CommandQueue) (infos : List Nat)
    (fence : Option Fence) (access : Nat) (man : Nat) :
    q.submit infos fence access = none
  ∧ q.pin_submitted_resources man = none
  ∧ q.wait_idle = none
  ∧ q.cleanup = none :=
  ⟨rfl, rfl, rfl, rfl⟩

/-- C10: `Adapter::open` ignores the requested queue descriptions — the
returned device's general/graphics/compute/transfer queue vectors are
all empty for every input — and a failing native device creation is only
logged while the same device is still returned. -/
theorem adapter_open_ignores_queues (a : Adapter) (qd : List (QueueFamily × Nat))
    (hr : Int) :
    (a.openDevice qd hr).1.general_queues = []
  ∧ (a.openDevice qd hr).1.graphics_queues = []
  ∧ (a.openDevice qd hr).1.compute_queues = []
  ∧ (a.openDevice qd hr).1.transfer_queues = []
  ∧ (a.openDevice qd hr).1 = (a.openDevice [] 0).1
  ∧ (SUCCEEDED hr = false → (a.openDevice qd hr).2 = 1) := by
  refine ⟨rfl, rfl, rfl, rfl, rfl, ?_⟩
  intro h
  simp [Adapter.openDevice, h]

/-- Witness for C10 at a non-empty queue request and a failing HRESULT. -/
theorem adapter_open_ignores_queues_witness :
    ((Adapter.openDevice ⟨0⟩ [(⟨()⟩, 2)] (-1)).1.general_queues = []
  ∧ (Adapter.openDevice ⟨0⟩ [(⟨()⟩, 2)] (-1)).1.graphics_queues = []
  ∧ (Adapter.openDevice ⟨0⟩ [(⟨()⟩, 2)] (-1)).1.compute_queues = []
  ∧ (Adapter.openDevice ⟨0⟩ [(⟨()⟩, 2)] (-1)).1.transfer_queues = []
  ∧ (Adapter.openDevice ⟨0⟩ [(⟨()⟩, 2)] (-1)).1 = (Adapter.openDevice ⟨0⟩ [] 0).1
  ∧ (SUCCEEDED (-1) = false → (Adapter.openDevice ⟨0⟩ [(⟨()⟩, 2)] (-1)).2 = 1)) :=
  adapter_open_ignores_queues ⟨0⟩ [(⟨()⟩, 2)] (-1)
